import Mathlib

/-!
Shallow embedding of `src/main.rs` (dfu_viewer): a crawler that walks a
category/article tree, fetches article documents, and post-processes them
into two text exports.

Modelling conventions:
* Rust `HashMap<LangEnum, V>` becomes an association list `List (Lang × V)`
  read through `List.lookup`; indexing `map[&KR]` (which panics when the
  key is absent) becomes a `lookup` that feeds a panic outcome on `none`.
* serde JSON decoding is modelled at the field level: a `...Doc` structure
  holds the wire shape (string-keyed language maps), and the decode
  functions translate string keys to `Lang`, failing on unknown keys,
  exactly as serde fails to deserialize a `LangEnum` map key it does not
  recognise.  serde does not require any particular key (such as `KR`) to
  be present in a map, and neither do the decoders here.
* The network is an oracle `net : Int → Except String ArticleResponseDoc`:
  the transport either fails or delivers a raw document, which is then
  decoded (`get_article_content`).  Cache writes always succeed and are not
  modelled; cache reads appear as `Event.cacheRead` in the event trace.
* Effects are recorded in an event trace: `Event.fetch id` for each network
  fetch attempt, `Event.sleep` for the 1-second pacing delay
  (`tokio::time::sleep`), `Event.cacheRead` for a file read in replay mode.
* A Rust panic (indexing a missing key) is `TravResult.panicked`; an `Err`
  returned through `?` is `TravResult.err`.  The source line
  `let _ = iterate_children(&child.children, ...)` discards an `Err` from
  the recursive call but a panic still unwinds, which the model mirrors.
-/

/-- Language codes (`LangEnum` in `main.rs`). -/
inductive Lang where
  | KR
  | EN
  | CN
  deriving DecidableEq, Repr

/-- Structure `ArticleAattachment` (sic) from `main.rs`. -/
structure ArticleAattachment where
  id : Int
  type_ : String
  position : Int
  source_url : String
  thumbnail_url : String
  modified : Bool
  status : String
  deriving DecidableEq, Repr

/-- Structure `ArticleDataResponse` from `main.rs`: the decoded article record. -/
structure ArticleDataResponse where
  id : Int
  category_id : Int
  category_titles : List (Lang × String)
  status : String
  titles : List (Lang × String)
  subtitles : List (Lang × String)
  image_url : Option String
  attachments : List (Lang × List ArticleAattachment)
  contents : List (Lang × String)
  deriving DecidableEq, Repr

/-- Structure `ArticleResponse` from `main.rs`: code, message and data. -/
structure ArticleResponse where
  code : String
  message : String
  data : ArticleDataResponse
  deriving DecidableEq, Repr

/-- Wire shape of an article record before decoding: the language-keyed
maps still carry raw string keys, as in the JSON payload. -/
structure ArticleDataDoc where
  id : Int
  category_id : Int
  category_titles : List (String × String)
  status : String
  titles : List (String × String)
  subtitles : List (String × String)
  image_url : Option String
  attachments : List (String × List ArticleAattachment)
  contents : List (String × String)
  deriving DecidableEq, Repr

/-- Wire shape of `ArticleResponse`. -/
structure ArticleResponseDoc where
  code : String
  message : String
  data : ArticleDataDoc
  deriving DecidableEq, Repr

/-- serde deserialization of a `LangEnum` map key: only the three variant
names are accepted. -/
def decodeLang : String → Option Lang
  | "KR" => some Lang.KR
  | "EN" => some Lang.EN
  | "CN" => some Lang.CN
  | _ => none

/-- Decode every key of a string-keyed map into `Lang`; fails if any key is
not a `LangEnum` variant name, as serde does for `HashMap<LangEnum, V>`. -/
def decodeLangMap {α : Type} : List (String × α) → Option (List (Lang × α))
  | [] => some []
  | (k, v) :: rest =>
    match decodeLang k with
    | none => none
    | some l =>
      match decodeLangMap rest with
      | none => none
      | some r => some ((l, v) :: r)

/-- serde decoding of `ArticleDataResponse`: each language-keyed map must
have recognisable keys; nothing requires any particular key (e.g. `KR`)
to be present. -/
def decodeArticleData (d : ArticleDataDoc) : Except String ArticleDataResponse :=
  match decodeLangMap d.category_titles, decodeLangMap d.titles,
        decodeLangMap d.subtitles, decodeLangMap d.attachments,
        decodeLangMap d.contents with
  | some ct, some t, some st, some att, some co =>
    Except.ok ⟨d.id, d.category_id, ct, d.status, t, st, d.image_url, att, co⟩
  | _, _, _, _, _ => Except.error "unknown language key"

/-- serde decoding of a whole `ArticleResponse` document. -/
def decodeArticleResponse (d : ArticleResponseDoc) : Except String ArticleResponse :=
  match decodeArticleData d.data with
  | Except.ok dd => Except.ok ⟨d.code, d.message, dd⟩
  | Except.error e => Except.error e

/-- Structure `CategoryChildResponse` from `main.rs` (recursive tree node). -/
inductive CategoryChildResponse where
  | mk : (id : Int) → (parent_id : Option Int) → (position : Int) →
      (type_ : String) → (status : String) → (titles : List (Lang × String)) →
      (children : List CategoryChildResponse) → (modified : Bool) →
      CategoryChildResponse

def CategoryChildResponse.id : CategoryChildResponse → Int
  | .mk i _ _ _ _ _ _ _ => i

def CategoryChildResponse.type_ : CategoryChildResponse → String
  | .mk _ _ _ ty _ _ _ _ => ty

def CategoryChildResponse.titles : CategoryChildResponse → List (Lang × String)
  | .mk _ _ _ _ _ t _ _ => t

def CategoryChildResponse.children : CategoryChildResponse → List CategoryChildResponse
  | .mk _ _ _ _ _ _ ch _ => ch

/-- The two `&mut Vec` accumulators threaded through `iterate_children`. -/
structure Sink where
  category_names : List String
  ko_articles : List ArticleDataResponse
  deriving DecidableEq, Repr

/-- Observable effects of a run: a network fetch attempt for an article id,
the 1-second pacing sleep, a cache-file read. -/
inductive Event where
  | fetch (id : Int)
  | sleep
  | cacheRead
  deriving DecidableEq, Repr

/-- How a traversal call ends: normally, with a returned `Err` (the `?`
operator), or by a panic (indexing a missing `HashMap` key). -/
inductive TravResult where
  | ok
  | err (msg : String)
  | panicked (msg : String)
  deriving DecidableEq, Repr

@[simp] theorem lang_beq_eq_decide (a b : Lang) : (a == b) = decide (a = b) := rfl

/-- Function `get_article_content`: fetch the raw article document for `id` over the
network and decode it.  (The cache write between fetch and decode always
succeeds and is not modelled.) -/
def get_article_content (net : Int → Except String ArticleResponseDoc)
    (i : Int) : Except String ArticleResponse :=
  match net i with
  | Except.error e => Except.error e
  | Except.ok doc => decodeArticleResponse doc

/-- Function `iterate_children` from `main.rs`, with the sink state and the event
trace passed explicitly.  Per node: an ARTICLE node records a fetch
attempt, propagates a fetch/decode failure via `?`, panics if the fetched
record lacks the `KR` key used by the progress `println!`, otherwise
appends the record and sleeps; a CATEGORY node appends its `KR` title
(panicking if absent); any node with non-empty `children` is recursed
into, and an `err` outcome of that recursive call is discarded
(`let _ = ...`) while a panic propagates. -/
def iterate_children (net : Int → Except String ArticleResponseDoc) :
    List CategoryChildResponse → Sink → List Event → TravResult × Sink × List Event
  | [], s, tr => (TravResult.ok, s, tr)
  | CategoryChildResponse.mk i _pid _pos ty _st titles ch _md :: rest, s, tr =>
    if ty = "ARTICLE" then
      match get_article_content net i with
      | Except.error e => (TravResult.err e, s, tr ++ [Event.fetch i])
      | Except.ok article =>
        match article.data.category_titles.lookup Lang.KR,
              article.data.titles.lookup Lang.KR with
        | some _, some _ =>
          let s1 : Sink := ⟨s.category_names, s.ko_articles ++ [article.data]⟩
          let tr1 := tr ++ [Event.fetch i, Event.sleep]
          if ch.isEmpty then
            iterate_children net rest s1 tr1
          else
            match iterate_children net ch s1 tr1 with
            | (TravResult.panicked m, s2, tr2) => (TravResult.panicked m, s2, tr2)
            | (_, s2, tr2) => iterate_children net rest s2 tr2
        | _, _ => (TravResult.panicked "missing KR key", s, tr ++ [Event.fetch i])
    else if ty = "CATEGORY" then
      match titles.lookup Lang.KR with
      | none => (TravResult.panicked "missing KR key", s, tr)
      | some t =>
        let s1 : Sink := ⟨s.category_names ++ [t], s.ko_articles⟩
        if ch.isEmpty then
          iterate_children net rest s1 tr
        else
          match iterate_children net ch s1 tr with
          | (TravResult.panicked m, s2, tr2) => (TravResult.panicked m, s2, tr2)
          | (_, s2, tr2) => iterate_children net rest s2 tr2
    else
      if ch.isEmpty then
        iterate_children net rest s tr
      else
        match iterate_children net ch s tr with
        | (TravResult.panicked m, s2, tr2) => (TravResult.panicked m, s2, tr2)
        | (_, s2, tr2) => iterate_children net rest s2 tr2

/-- Function `read_from_web`: run the traversal from empty accumulators over the
decoded category root data.  (Fetching and caching the root document
itself is `get_category_response`; its success is taken as input here in
the form of the already-decoded `rootData`.) -/
def read_from_web (net : Int → Except String ArticleResponseDoc)
    (rootData : List CategoryChildResponse) : TravResult × Sink × List Event :=
  iterate_children net rootData ⟨[], []⟩ []

/-- Collect `f` over a list, failing (panicking, at the use sites) as soon
as one element fails; `Option`-valued `traverse` for lists. -/
def collectOpt {α β : Type} (f : α → Option β) : List α → Option (List β)
  | [] => some []
  | a :: t =>
    match f a with
    | none => none
    | some b =>
      match collectOpt f t with
      | none => none
      | some bs => some (b :: bs)

/-- Function `read_from_local`: replay mode.  Reads the cached category root
(already decoded here as `categoryData`) and every cached article file
(wire documents `articleDocs`); each article file is decoded with
`.unwrap()` (panic on failure, modelled as `none`), and the category-name
list is `data.iter().map(|child| child.titles[&KR])` over the TOP-LEVEL
nodes only (the indexing panics when `KR` is absent).  No network is
involved; each file read is an `Event.cacheRead`. -/
def read_from_local (categoryData : List CategoryChildResponse)
    (articleDocs : List ArticleResponseDoc) :
    Option (List String × List ArticleDataResponse) × List Event :=
  let tr := Event.cacheRead :: articleDocs.map (fun _ => Event.cacheRead)
  match collectOpt (fun d => (decodeArticleResponse d).toOption) articleDocs with
  | none => (none, tr)
  | some arts =>
    match collectOpt (fun c => c.titles.lookup Lang.KR) categoryData with
    | none => (none, tr)
    | some names => (some (names, arts.map (fun a => a.data)), tr)

/-- Function `post_process` from `main.rs`: build the article blocks (skipping
articles whose owning-category `KR` title is excluded; the exclusion test
itself indexes `category_titles[&KR]` for EVERY article), filter the
category names, and join both with newlines.  `none` models a panic on a
missing `KR` key; the result pair is `(category_names_body,
ko_articles_body)`, the two strings written to the export files. -/
def post_article_block (exclude_categories : List String)
    (article : ArticleDataResponse) : Option (Option String) :=
  match article.category_titles.lookup Lang.KR with
  | none => none
  | some catTitle =>
    if exclude_categories.contains catTitle then
      some none
    else
      match article.titles.lookup Lang.KR, article.contents.lookup Lang.KR with
      | some t, some co =>
        some (some ("```[" ++ t ++ "]```\\\n" ++ co ++ "\n\n\n\n"))
      | _, _ => none

def post_process (ko_articles : List ArticleDataResponse)
    (category_names : List String) (exclude_categories : List String) :
    Option (String × String) :=
  match collectOpt (post_article_block exclude_categories) ko_articles with
  | none => none
  | some blocks =>
    let kept := category_names.filter (fun name => !exclude_categories.contains name)
    some (String.intercalate "\n" kept, String.intercalate "\n" (blocks.filterMap id))

/-- The hardcoded exclusion list from `main`. -/
def exclude_categories_main : List String := ["명예의 전당", "스페셜", "아트던展"]

/-- Live-mode `main`: run the traversal, and only when it returns `Ok` run
`post_process`; `none` means the run aborted with no export written,
`some` carries the two written export bodies. -/
def main_live (net : Int → Except String ArticleResponseDoc)
    (rootData : List CategoryChildResponse) (excluded : List String) :
    Option (String × String) :=
  match read_from_web net rootData with
  | (TravResult.ok, s, _) => post_process s.ko_articles s.category_names excluded
  | (_, _, _) => none

/-! ## Specification-side definitions

The pre-order, depth-first, sibling-order-preserving flattening of a
category tree, and the derived lists the spec talks about; these are
written from the spec's description of the output, independently of the
traversal code, so that the traversal can be proved against them. -/

/-- Pre-order, depth-first, sibling-order-preserving flattening. -/
def preorderNodes : List CategoryChildResponse → List CategoryChildResponse
  | [] => []
  | CategoryChildResponse.mk i pid pos ty st titles ch md :: rest =>
    CategoryChildResponse.mk i pid pos ty st titles ch md ::
      (preorderNodes ch ++ preorderNodes rest)

def isCategory (c : CategoryChildResponse) : Bool := c.type_ == "CATEGORY"

def isArticle (c : CategoryChildResponse) : Bool := c.type_ == "ARTICLE"

/-- Primary-language title of a title map (total, defaulting to ""). -/
def krTitle (m : List (Lang × String)) : String := (m.lookup Lang.KR).getD ""

/-- KR titles of exactly the CATEGORY-kind nodes, in pre-order. -/
def preorderCategoryNames (cs : List CategoryChildResponse) : List String :=
  ((preorderNodes cs).filter isCategory).map (fun c => krTitle c.titles)

/-- Ids of exactly the ARTICLE-kind nodes, in pre-order. -/
def preorderArticleIds (cs : List CategoryChildResponse) : List Int :=
  ((preorderNodes cs).filter isArticle).map (fun c => c.id)

/-- The records obtained by fetching and decoding the given ids. -/
def fetchRecords (net : Int → Except String ArticleResponseDoc)
    (ids : List Int) : List ArticleDataResponse :=
  ids.filterMap (fun i => (get_article_content net i).toOption.map (fun a => a.data))

/-- The decoded records of exactly the ARTICLE-kind nodes, in pre-order. -/
def preorderArticleRecords (net : Int → Except String ArticleResponseDoc)
    (cs : List CategoryChildResponse) : List ArticleDataResponse :=
  fetchRecords net (preorderArticleIds cs)

/-- The event trace of a run that fetches `ids` in order, sleeping after
each fetch. -/
def pacedFetchTrace (ids : List Int) : List Event :=
  (ids.map (fun i => [Event.fetch i, Event.sleep])).flatten

/-- The fetch for article `i` succeeds end-to-end: transport and decode
succeed and the record carries the KR keys read by the progress log. -/
def articleOk (net : Int → Except String ArticleResponseDoc) (i : Int) : Bool :=
  match get_article_content net i with
  | Except.error _ => false
  | Except.ok a =>
    (a.data.category_titles.lookup Lang.KR).isSome &&
      (a.data.titles.lookup Lang.KR).isSome

/-- Every ARTICLE node of the tree fetches and decodes successfully. -/
def goodNet (net : Int → Except String ArticleResponseDoc)
    (cs : List CategoryChildResponse) : Prop :=
  ∀ i ∈ preorderArticleIds cs, articleOk net i = true

/-- Every CATEGORY node of the tree carries a KR title. -/
def wellFormedTree (cs : List CategoryChildResponse) : Prop :=
  ∀ c ∈ preorderNodes cs, isCategory c = true → (c.titles.lookup Lang.KR).isSome = true

def isFetch : Event → Bool
  | Event.fetch _ => true
  | _ => false

/-- The network fetch attempts recorded in a trace. -/
def fetchEvents (tr : List Event) : List Event := tr.filter isFetch

/-- Scan for pacing: in `wellPacedAux pending tr`, a fetch is admissible only
when no fetch is pending a pacing sleep; a sleep clears the pending
state. -/
def wellPacedAux : Bool → List Event → Bool
  | _, [] => true
  | pending, Event.fetch _ :: rest => !pending && wellPacedAux true rest
  | _, Event.sleep :: rest => wellPacedAux false rest
  | pending, Event.cacheRead :: rest => wellPacedAux pending rest

/-- Any two successive fetches in the trace are separated by a sleep. -/
def wellPaced (tr : List Event) : Bool := wellPacedAux false tr

/-! ## Unfolding and distribution lemmas -/

@[simp] theorem CategoryChildResponse.id_mk (i : Int) (pid : Option Int)
    (pos : Int) (ty st : String) (titles : List (Lang × String))
    (ch : List CategoryChildResponse) (md : Bool) :
    (CategoryChildResponse.mk i pid pos ty st titles ch md).id = i := rfl

@[simp] theorem CategoryChildResponse.type_mk (i : Int) (pid : Option Int)
    (pos : Int) (ty st : String) (titles : List (Lang × String))
    (ch : List CategoryChildResponse) (md : Bool) :
    (CategoryChildResponse.mk i pid pos ty st titles ch md).type_ = ty := rfl

@[simp] theorem CategoryChildResponse.titles_mk (i : Int) (pid : Option Int)
    (pos : Int) (ty st : String) (titles : List (Lang × String))
    (ch : List CategoryChildResponse) (md : Bool) :
    (CategoryChildResponse.mk i pid pos ty st titles ch md).titles = titles := rfl

@[simp] theorem CategoryChildResponse.children_mk (i : Int) (pid : Option Int)
    (pos : Int) (ty st : String) (titles : List (Lang × String))
    (ch : List CategoryChildResponse) (md : Bool) :
    (CategoryChildResponse.mk i pid pos ty st titles ch md).children = ch := rfl

@[simp] theorem preorderNodes_nil : preorderNodes [] = [] := by
  simp [preorderNodes]

@[simp] theorem preorderNodes_cons (c : CategoryChildResponse)
    (rest : List CategoryChildResponse) :
    preorderNodes (c :: rest) = c :: (preorderNodes c.children ++ preorderNodes rest) := by
  cases c
  simp [preorderNodes]

@[simp] theorem preorderCategoryNames_nil : preorderCategoryNames [] = [] := by
  simp [preorderCategoryNames]

theorem preorderCategoryNames_cons (c : CategoryChildResponse)
    (rest : List CategoryChildResponse) :
    preorderCategoryNames (c :: rest) =
      (if isCategory c then [krTitle c.titles] else []) ++
        (preorderCategoryNames c.children ++ preorderCategoryNames rest) := by
  simp only [preorderCategoryNames, preorderNodes_cons, List.filter_cons,
    List.filter_append, List.map_append]
  by_cases hc : isCategory c <;> simp [hc]

@[simp] theorem preorderArticleIds_nil : preorderArticleIds [] = [] := by
  simp [preorderArticleIds]

theorem preorderArticleIds_cons (c : CategoryChildResponse)
    (rest : List CategoryChildResponse) :
    preorderArticleIds (c :: rest) =
      (if isArticle c then [c.id] else []) ++
        (preorderArticleIds c.children ++ preorderArticleIds rest) := by
  simp only [preorderArticleIds, preorderNodes_cons, List.filter_cons,
    List.filter_append, List.map_append]
  by_cases hc : isArticle c <;> simp [hc]

@[simp] theorem fetchRecords_nil (net : Int → Except String ArticleResponseDoc) :
    fetchRecords net [] = [] := rfl

@[simp] theorem fetchRecords_append (net : Int → Except String ArticleResponseDoc)
    (l1 l2 : List Int) :
    fetchRecords net (l1 ++ l2) = fetchRecords net l1 ++ fetchRecords net l2 := by
  simp [fetchRecords]

@[simp] theorem pacedFetchTrace_nil : pacedFetchTrace [] = [] := rfl

@[simp] theorem pacedFetchTrace_append (l1 l2 : List Int) :
    pacedFetchTrace (l1 ++ l2) = pacedFetchTrace l1 ++ pacedFetchTrace l2 := by
  simp [pacedFetchTrace]

theorem goodNet_cons (net : Int → Except String ArticleResponseDoc)
    (c : CategoryChildResponse) (rest : List CategoryChildResponse) :
    goodNet net (c :: rest) ↔
      (isArticle c = true → articleOk net c.id = true) ∧
        goodNet net c.children ∧ goodNet net rest := by
  simp only [goodNet, preorderArticleIds_cons, List.mem_append]
  by_cases hc : isArticle c <;>
    simp [hc, or_imp, forall_and]

theorem wellFormedTree_cons (c : CategoryChildResponse)
    (rest : List CategoryChildResponse) :
    wellFormedTree (c :: rest) ↔
      (isCategory c = true → (c.titles.lookup Lang.KR).isSome = true) ∧
        wellFormedTree c.children ∧ wellFormedTree rest := by
  simp only [wellFormedTree, preorderNodes_cons, List.mem_cons, List.mem_append]
  constructor
  · intro h
    exact ⟨h c (Or.inl rfl), fun x hx => h x (Or.inr (Or.inl hx)),
      fun x hx => h x (Or.inr (Or.inr hx))⟩
  · rintro ⟨h1, h2, h3⟩ x (rfl | hx | hx)
    · exact h1
    · exact h2 x hx
    · exact h3 x hx

theorem goodNet_nil (net : Int → Except String ArticleResponseDoc) :
    goodNet net [] := by
  intro i hi
  simp [preorderArticleIds] at hi

theorem wellFormedTree_nil : wellFormedTree [] := by
  intro c hc
  simp at hc

/-! ## Main success lemma -/

/-- On a well-formed tree whose article fetches all succeed, the traversal
returns `ok`, appends the pre-order CATEGORY titles to `category_names`,
appends the pre-order decoded ARTICLE records to `ko_articles`, and emits
one fetch-then-sleep pair per ARTICLE node, in pre-order. -/
theorem iterate_children_spec (net : Int → Except String ArticleResponseDoc) :
    ∀ cs : List CategoryChildResponse, goodNet net cs → wellFormedTree cs →
    ∀ s tr, iterate_children net cs s tr =
      (TravResult.ok,
       ⟨s.category_names ++ preorderCategoryNames cs,
        s.ko_articles ++ preorderArticleRecords net cs⟩,
       tr ++ pacedFetchTrace (preorderArticleIds cs)) := by
  intro cs
  induction cs using preorderNodes.induct with
  | case1 =>
    intro _ _ s tr
    simp [iterate_children, preorderArticleRecords]
  | case2 i pid pos ty st titles ch md rest ih_ch ih_rest =>
    intro hg hw s tr
    obtain ⟨hA, hgch, hgrest⟩ := (goodNet_cons net _ rest).mp hg
    obtain ⟨hC, hwch, hwrest⟩ := (wellFormedTree_cons _ rest).mp hw
    simp only [CategoryChildResponse.id_mk, CategoryChildResponse.type_mk,
      CategoryChildResponse.titles_mk, CategoryChildResponse.children_mk]
      at hA hC hgch hgrest hwch hwrest
    by_cases hty : ty = "ARTICLE"
    · have hok : articleOk net i = true := by
        apply hA
        simp [isArticle, hty]
      rw [articleOk] at hok
      cases hfetch : get_article_content net i with
      | error e => rw [hfetch] at hok; simp at hok
      | ok a =>
        rw [hfetch] at hok
        simp only [Bool.and_eq_true, Option.isSome_iff_exists] at hok
        obtain ⟨⟨ct, hct⟩, t, ht⟩ := hok
        rw [iterate_children, if_pos hty, hfetch]
        simp only [hct, ht]
        by_cases hch : ch.isEmpty
        · have hch' : ch = [] := List.isEmpty_iff.mp hch
          subst hch'
          rw [if_pos hch, ih_rest hgrest hwrest]
          simp [preorderCategoryNames_cons, preorderArticleIds_cons,
            preorderArticleRecords, isCategory, isArticle, hty, fetchRecords,
            List.filterMap_cons, Except.toOption, hfetch, pacedFetchTrace]
        · rw [if_neg hch, ih_ch hgch hwch]
          simp [ih_rest hgrest hwrest, preorderCategoryNames_cons,
            preorderArticleIds_cons, preorderArticleRecords, isCategory, isArticle,
            hty, fetchRecords, List.filterMap_cons, Except.toOption, hfetch,
            pacedFetchTrace]
    · by_cases htyC : ty = "CATEGORY"
      · have hsome : (titles.lookup Lang.KR).isSome = true := by
          apply hC
          simp [isCategory, htyC]
        obtain ⟨t, ht⟩ := Option.isSome_iff_exists.mp hsome
        rw [iterate_children, if_neg hty, if_pos htyC]
        simp only [ht]
        by_cases hch : ch.isEmpty
        · have hch' : ch = [] := List.isEmpty_iff.mp hch
          subst hch'
          rw [if_pos hch, ih_rest hgrest hwrest]
          simp [preorderCategoryNames_cons, preorderArticleIds_cons,
            preorderArticleRecords, isCategory, isArticle, hty, htyC, krTitle, ht]
        · rw [if_neg hch, ih_ch hgch hwch]
          simp [ih_rest hgrest hwrest, preorderCategoryNames_cons,
            preorderArticleIds_cons, preorderArticleRecords, isCategory, isArticle,
            hty, htyC, krTitle, ht]
      · rw [iterate_children, if_neg hty, if_neg htyC]
        by_cases hch : ch.isEmpty
        · have hch' : ch = [] := List.isEmpty_iff.mp hch
          subst hch'
          rw [if_pos hch, ih_rest hgrest hwrest]
          simp [preorderCategoryNames_cons, preorderArticleIds_cons,
            preorderArticleRecords, isCategory, isArticle, hty, htyC]
        · rw [if_neg hch, ih_ch hgch hwch]
          simp [ih_rest hgrest hwrest, preorderCategoryNames_cons,
            preorderArticleIds_cons, preorderArticleRecords, isCategory, isArticle,
            hty, htyC]

/-! ## Concrete documents, oracles and trees used by witnesses and
counterexamples -/

/-- A fully well-formed article document for id `i`. -/
def docW (i : Int) : ArticleResponseDoc :=
  ⟨"200", "ok", ⟨i, 100, [("KR", "Cat")], "PUBLISHED", [("KR", "Title")], [],
    none, [], [("KR", "Body")]⟩⟩

/-- An oracle on which every fetch succeeds with a well-formed document. -/
def netW : Int → Except String ArticleResponseDoc := fun i => Except.ok (docW i)

/-- An ARTICLE node with the given id and children and no titles. -/
def articleNode (i : Int) (ch : List CategoryChildResponse) : CategoryChildResponse :=
  CategoryChildResponse.mk i none 0 "ARTICLE" "PUBLISHED" [] ch false

/-- A CATEGORY node with a KR title. -/
def categoryNode (i : Int) (t : String) (ch : List CategoryChildResponse) :
    CategoryChildResponse :=
  CategoryChildResponse.mk i none 0 "CATEGORY" "PUBLISHED" [(Lang.KR, t)] ch false

/-- A small well-formed tree: a category with a nested article, then a
top-level article. -/
def treeW : List CategoryChildResponse :=
  [categoryNode 10 "Top" [articleNode 1 []], articleNode 2 []]

theorem articleOk_netW (i : Int) : articleOk netW i = true := rfl

theorem goodNet_netW (cs : List CategoryChildResponse) : goodNet netW cs :=
  fun i _ => articleOk_netW i

theorem wellFormedTree_treeW : wellFormedTree treeW := by
  simp [wellFormedTree, treeW, categoryNode, articleNode, preorderNodes,
    isCategory, List.lookup]

/-- The record `docW i` decodes to. -/
def recW (i : Int) : ArticleDataResponse :=
  ⟨i, 100, [(Lang.KR, "Cat")], "PUBLISHED", [(Lang.KR, "Title")], [], none, [],
    [(Lang.KR, "Body")]⟩

theorem iterate_children_netW_treeW :
    iterate_children netW treeW ⟨[], []⟩ [] =
      (TravResult.ok, ⟨["Top"], [recW 1, recW 2]⟩,
        [Event.fetch 1, Event.sleep, Event.fetch 2, Event.sleep]) := by
  simp [iterate_children, treeW, categoryNode, articleNode, netW, get_article_content,
    decodeArticleResponse, decodeArticleData, decodeLangMap, decodeLang, docW, recW,
    List.lookup]

/-! ## Trace and post-processing lemmas -/

@[simp] theorem pacedFetchTrace_cons (i : Int) (ids : List Int) :
    pacedFetchTrace (i :: ids) = Event.fetch i :: Event.sleep :: pacedFetchTrace ids := by
  simp [pacedFetchTrace]

theorem fetchEvents_pacedFetchTrace (ids : List Int) :
    fetchEvents (pacedFetchTrace ids) = ids.map Event.fetch := by
  induction ids with
  | nil => rfl
  | cons i ids ih =>
    simp [pacedFetchTrace_cons, fetchEvents, List.filter_cons, isFetch] at ih ⊢
    exact ih

theorem wellPaced_pacedFetchTrace (ids : List Int) :
    wellPaced (pacedFetchTrace ids) = true := by
  rw [wellPaced]
  induction ids with
  | nil => rfl
  | cons i ids ih =>
    rw [pacedFetchTrace_cons]
    simp only [wellPacedAux, Bool.not_false, Bool.true_and]
    exact ih

/-- Replay mode reads the category file and then one cache file per
article document, whatever the decode outcomes are. -/
theorem read_from_local_trace (categoryData : List CategoryChildResponse)
    (articleDocs : List ArticleResponseDoc) :
    (read_from_local categoryData articleDocs).2 =
      Event.cacheRead :: articleDocs.map (fun _ => Event.cacheRead) := by
  unfold read_from_local
  cases collectOpt (fun d => (decodeArticleResponse d).toOption) articleDocs with
  | none => rfl
  | some arts =>
    cases collectOpt (fun c => c.titles.lookup Lang.KR) categoryData with
    | none => rfl
    | some names => rfl

theorem fetchEvents_cacheReads {α : Type} (l : List α) :
    fetchEvents (Event.cacheRead :: l.map (fun _ => Event.cacheRead)) = [] := by
  induction l with
  | nil => rfl
  | cons x l ih => simp [fetchEvents, List.filter_cons, isFetch] at ih ⊢

/-- A successful collection of KR-title lookups returns exactly the
(total) KR titles, in order. -/
theorem collectOpt_lookup_eq_map (categoryData : List CategoryChildResponse) :
    ∀ names, collectOpt (fun c => c.titles.lookup Lang.KR) categoryData = some names →
      names = categoryData.map (fun c => krTitle c.titles) := by
  induction categoryData with
  | nil => intro names h; simp [collectOpt] at h; simp [h.symm]
  | cons c t ih =>
    intro names h
    rw [collectOpt] at h
    cases hc : c.titles.lookup Lang.KR with
    | none => rw [hc] at h; simp at h
    | some v =>
      rw [hc] at h
      cases ht : collectOpt (fun c => c.titles.lookup Lang.KR) t with
      | none => rw [ht] at h; simp at h
      | some vs =>
        rw [ht] at h
        simp at h
        simp [h.symm, ih vs ht, krTitle, hc]

/-- Spec-side article block format: bracketed title header, a backslash
line-join, the body, and the blank-line separator. -/
def articleBlockSpec (a : ArticleDataResponse) : String :=
  "```[" ++ krTitle a.titles ++ "]```\\\n" ++ krTitle a.contents ++ "\n\n\n\n"

/-- Articles whose owning-category KR title is not excluded. -/
def keptArticles (arts : List ArticleDataResponse) (excl : List String) :
    List ArticleDataResponse :=
  arts.filter (fun a => !excl.contains (krTitle a.category_titles))

theorem collectOpt_isSome {α β : Type} (f : α → Option β) :
    ∀ l : List α, (collectOpt f l).isSome = true ↔ ∀ a ∈ l, (f a).isSome = true := by
  intro l
  induction l with
  | nil => simp [collectOpt]
  | cons a t ih =>
    rw [collectOpt]
    cases hf : f a with
    | none => simp [hf]
    | some b =>
      cases hc : collectOpt f t with
      | none =>
        rw [hc] at ih
        simp at ih
        simp [hf]
        obtain ⟨x, hx, hfx⟩ := ih
        exact ⟨x, hx, hfx⟩
      | some bs =>
        rw [hc] at ih
        simp at ih
        simp [hf]
        exact ih

/-- What a successful block collection produces: exactly one block per
kept article, in order, each in the spec format. -/
theorem collectOpt_blocks (excl : List String) :
    ∀ arts blocks, collectOpt (post_article_block excl) arts = some blocks →
      blocks.filterMap id = (keptArticles arts excl).map articleBlockSpec := by
  intro arts
  induction arts with
  | nil =>
    intro blocks h
    simp [collectOpt] at h
    subst h
    simp [keptArticles]
  | cons a t ih =>
    intro blocks h
    rw [collectOpt] at h
    cases hb : post_article_block excl a with
    | none => rw [hb] at h; simp at h
    | some b =>
      rw [hb] at h
      cases ht : collectOpt (post_article_block excl) t with
      | none => rw [ht] at h; simp at h
      | some bs =>
        rw [ht] at h
        simp at h
        subst h
        rw [post_article_block] at hb
        cases hct : a.category_titles.lookup Lang.KR with
        | none => rw [hct] at hb; simp at hb
        | some ct =>
          rw [hct] at hb
          have hkr : krTitle a.category_titles = ct := by simp [krTitle, hct]
          by_cases hcont : ct ∈ excl
          · simp [hcont] at hb
            subst hb
            simp [keptArticles, List.filter_cons, hkr, hcont]
            simp [keptArticles] at ih
            exact ih bs ht
          · simp [hcont] at hb
            cases hti : a.titles.lookup Lang.KR with
            | none =>
              cases hco : a.contents.lookup Lang.KR <;>
                rw [hti, hco] at hb <;> simp at hb
            | some ti =>
              cases hco : a.contents.lookup Lang.KR with
              | none => rw [hti, hco] at hb; simp at hb
              | some co =>
                rw [hti, hco] at hb
                simp at hb
                subst hb
                have h2 : krTitle a.titles = ti := by simp [krTitle, hti]
                have h3 : krTitle a.contents = co := by simp [krTitle, hco]
                simp [keptArticles, List.filter_cons, hkr, hcont, articleBlockSpec,
                  h2, h3]
                simp [keptArticles] at ih
                exact ih bs ht

/-- Per-article totality condition of the export formatter. -/
theorem post_article_block_isSome (excl : List String) (a : ArticleDataResponse) :
    (post_article_block excl a).isSome = true ↔
      ∃ ct, a.category_titles.lookup Lang.KR = some ct ∧
        (ct ∉ excl →
          (a.titles.lookup Lang.KR).isSome = true ∧
            (a.contents.lookup Lang.KR).isSome = true) := by
  rw [post_article_block]
  cases hct : a.category_titles.lookup Lang.KR with
  | none => simp
  | some ct =>
    by_cases hcont : ct ∈ excl
    · simp [hcont]
    · cases hti : a.titles.lookup Lang.KR with
      | none =>
        cases hco : a.contents.lookup Lang.KR <;> simp [hcont, hti, hco]
      | some ti =>
        cases hco : a.contents.lookup Lang.KR with
        | none => simp [hcont, hti, hco]
        | some co => simp [hcont, hti, hco]

/-! ## Claim theorems -/

/-- C2: for every well-formed category tree on which all fetches and
decodes succeed, the traversal produces `category_names` equal to the
primary-language titles of exactly the CATEGORY-kind nodes and
`ko_articles` equal to the decoded records of exactly the ARTICLE-kind
nodes, each in pre-order, depth-first, sibling-order-preserving traversal
order of the input tree. -/
theorem claim_C2 (net : Int → Except String ArticleResponseDoc)
    (cs : List CategoryChildResponse) (hg : goodNet net cs)
    (hw : wellFormedTree cs) :
    (read_from_web net cs).2.1.category_names = preorderCategoryNames cs ∧
      (read_from_web net cs).2.1.ko_articles = preorderArticleRecords net cs := by
  rw [read_from_web, iterate_children_spec net cs hg hw]
  simp

theorem claim_C2_witness :
    goodNet netW treeW ∧ wellFormedTree treeW ∧
      ((read_from_web netW treeW).2.1.category_names = preorderCategoryNames treeW ∧
        (read_from_web netW treeW).2.1.ko_articles = preorderArticleRecords netW treeW) :=
  ⟨goodNet_netW treeW, wellFormedTree_treeW,
    claim_C2 netW treeW (goodNet_netW treeW) wellFormedTree_treeW⟩

/-- C5: on a completed traversal, live mode performs exactly one network
fetch attempt per ARTICLE-kind node, in pre-order; replay mode performs
zero network fetch attempts, and reads the category file plus one cache
file per cached article. -/
theorem claim_C5 (net : Int → Except String ArticleResponseDoc)
    (cs : List CategoryChildResponse) (hg : goodNet net cs)
    (hw : wellFormedTree cs) :
    fetchEvents (read_from_web net cs).2.2 = (preorderArticleIds cs).map Event.fetch ∧
      ∀ (categoryData : List CategoryChildResponse)
        (articleDocs : List ArticleResponseDoc),
        fetchEvents (read_from_local categoryData articleDocs).2 = [] ∧
          (read_from_local categoryData articleDocs).2 =
            Event.cacheRead :: articleDocs.map (fun _ => Event.cacheRead) := by
  constructor
  · rw [read_from_web, iterate_children_spec net cs hg hw]
    simp [fetchEvents_pacedFetchTrace]
  · intro categoryData articleDocs
    rw [read_from_local_trace]
    exact ⟨fetchEvents_cacheReads articleDocs, rfl⟩

theorem claim_C5_witness :
    goodNet netW treeW ∧ wellFormedTree treeW ∧
      (fetchEvents (read_from_web netW treeW).2.2 =
          (preorderArticleIds treeW).map Event.fetch ∧
        ∀ (categoryData : List CategoryChildResponse)
          (articleDocs : List ArticleResponseDoc),
          fetchEvents (read_from_local categoryData articleDocs).2 = [] ∧
            (read_from_local categoryData articleDocs).2 =
              Event.cacheRead :: articleDocs.map (fun _ => Event.cacheRead)) :=
  ⟨goodNet_netW treeW, wellFormedTree_treeW,
    claim_C5 netW treeW (goodNet_netW treeW) wellFormedTree_treeW⟩

/-- An oracle whose fetch of article 1 fails with a transport error and
succeeds with a well-formed document on every other id. -/
def netC1 : Int → Except String ArticleResponseDoc := fun i =>
  if i = 1 then Except.error "boom" else Except.ok (docW i)

/-- C6 (counterexample): in the run of `netC1` over `treeW`, the failed
fetch of nested article 1 is not followed by the pacing sleep, and —
because the recursion error is discarded — the fetch of article 2 begins
immediately after it: two successive fetches with no sleep between them. -/
theorem claim_C6_counterexample :
    (read_from_web netC1 treeW).2.2 = [Event.fetch 1, Event.fetch 2, Event.sleep] ∧
      wellPaced [Event.fetch 1, Event.fetch 2, Event.sleep] = false := by
  constructor
  · simp [read_from_web, iterate_children, treeW, categoryNode, articleNode, netC1,
      get_article_content, decodeArticleResponse, decodeArticleData, decodeLangMap,
      decodeLang, docW, List.lookup]
  · rfl

/-- C6 (amended): when every article fetch of the tree succeeds (and the
tree is well formed, so the run completes without panic), the engine
sleeps one time unit after every fetch before the next one begins, so the
run's trace is well paced. -/
theorem claim_C6 (net : Int → Except String ArticleResponseDoc)
    (cs : List CategoryChildResponse) (hg : goodNet net cs)
    (hw : wellFormedTree cs) :
    wellPaced (read_from_web net cs).2.2 = true := by
  rw [read_from_web, iterate_children_spec net cs hg hw]
  simp [wellPaced_pacedFetchTrace]

theorem claim_C6_witness :
    goodNet netW treeW ∧ wellFormedTree treeW ∧
      wellPaced (read_from_web netW treeW).2.2 = true :=
  ⟨goodNet_netW treeW, wellFormedTree_treeW,
    claim_C6 netW treeW (goodNet_netW treeW) wellFormedTree_treeW⟩

/-- The tree used against C1: a single top-level category whose only child
is article 1, whose fetch fails under `netC1`. -/
def treeC1 : List CategoryChildResponse :=
  [categoryNode 10 "Top" [articleNode 1 []]]

/-- C1 (counterexample): the fetch of nested article 1 fails, yet the
traversal returns `ok` — the error from the recursion into the category's
children is discarded by `let _ = ...` — and `main_live` then writes both
exports. -/
theorem claim_C1_counterexample :
    netC1 1 = Except.error "boom" ∧
      read_from_web netC1 treeC1 = (TravResult.ok, ⟨["Top"], []⟩, [Event.fetch 1]) ∧
      main_live netC1 treeC1 [] = some ("Top", "") := by
  have hrw : read_from_web netC1 treeC1 =
      (TravResult.ok, ⟨["Top"], []⟩, [Event.fetch 1]) := by
    simp [read_from_web, iterate_children, treeC1, categoryNode, articleNode, netC1,
      get_article_content, List.lookup]
  refine ⟨rfl, hrw, ?_⟩
  rw [main_live, hrw]
  simp [post_process, post_article_block, collectOpt]
  exact ⟨rfl, rfl⟩

/-- C1 (amended): a fetch failure aborts only the `iterate_children` call
for the sibling sequence that contains the failing ARTICLE node; the
caller discards an `err` coming out of a recursion into children and
continues, so only failures among top-level nodes surface, and a run whose
top-level result is `ok` still goes on to post-process and write the
exports. -/
theorem claim_C1 (net : Int → Except String ArticleResponseDoc) :
    (∀ i pid pos st titles ch md rest s tr e,
      net i = Except.error e →
      iterate_children net
          (CategoryChildResponse.mk i pid pos "ARTICLE" st titles ch md :: rest) s tr =
        (TravResult.err e, s, tr ++ [Event.fetch i])) ∧
    (∀ i pid pos ty st titles ch md rest s tr e s1 tr1,
      ty ≠ "ARTICLE" → ty ≠ "CATEGORY" →
      iterate_children net ch s tr = (TravResult.err e, s1, tr1) →
      iterate_children net
          (CategoryChildResponse.mk i pid pos ty st titles ch md :: rest) s tr =
        iterate_children net rest s1 tr1) ∧
    (∀ rootData excluded,
      (read_from_web net rootData).1 = TravResult.ok →
      main_live net rootData excluded =
        post_process (read_from_web net rootData).2.1.ko_articles
          (read_from_web net rootData).2.1.category_names excluded) := by
  refine ⟨?_, ?_, ?_⟩
  · intro i pid pos st titles ch md rest s tr e hnet
    rw [iterate_children, if_pos rfl]
    simp [get_article_content, hnet]
  · intro i pid pos ty st titles ch md rest s tr e s1 tr1 hty htyC hrec
    rw [iterate_children, if_neg hty, if_neg htyC]
    by_cases hch : ch.isEmpty
    · have hch' : ch = [] := List.isEmpty_iff.mp hch
      subst hch'
      rw [iterate_children] at hrec
      simp at hrec
    · rw [if_neg hch, hrec]
  · intro rootData excluded hok
    rw [main_live]
    rcases hrw : read_from_web net rootData with ⟨r, s1, tr1⟩
    rw [hrw] at hok
    simp at hok
    subst hok
    simp [hrw]

theorem claim_C1_witness :
    netC1 1 = Except.error "boom" ∧
      iterate_children netC1
          (CategoryChildResponse.mk 1 none 0 "ARTICLE" "PUBLISHED" [] [] false :: [])
          ⟨[], []⟩ [] =
        (TravResult.err "boom", ⟨[], []⟩, [Event.fetch 1]) ∧
      iterate_children netC1 [articleNode 1 []] ⟨["Top"], []⟩ [] =
        (TravResult.err "boom", ⟨["Top"], []⟩, [Event.fetch 1]) ∧
      iterate_children netC1
          (CategoryChildResponse.mk 9 none 0 "OTHER" "PUBLISHED" [] [articleNode 1 []] false :: [])
          ⟨["Top"], []⟩ [] =
        iterate_children netC1 [] ⟨["Top"], []⟩ [Event.fetch 1] ∧
      (read_from_web netC1 treeC1).1 = TravResult.ok ∧
      main_live netC1 treeC1 [] =
        post_process (read_from_web netC1 treeC1).2.1.ko_articles
          (read_from_web netC1 treeC1).2.1.category_names [] := by
  have h1 : netC1 1 = Except.error "boom" := rfl
  have h2 : iterate_children netC1 [articleNode 1 []] ⟨["Top"], []⟩ [] =
      (TravResult.err "boom", ⟨["Top"], []⟩, [Event.fetch 1]) := by
    simp [iterate_children, articleNode, netC1, get_article_content]
  have h3 : (read_from_web netC1 treeC1).1 = TravResult.ok := by
    simp [read_from_web, iterate_children, treeC1, categoryNode, articleNode, netC1,
      get_article_content, List.lookup]
  refine ⟨h1, ?_, h2, ?_, h3, ?_⟩
  · exact (claim_C1 netC1).1 1 none 0 "PUBLISHED" [] [] false [] ⟨[], []⟩ [] "boom" h1
  · exact (claim_C1 netC1).2.1 9 none 0 "OTHER" "PUBLISHED" [] [articleNode 1 []]
      false [] ⟨["Top"], []⟩ [] "boom" ⟨["Top"], []⟩ [Event.fetch 1]
      (by decide) (by decide) h2
  · exact (claim_C1 netC1).2.2 treeC1 [] h3

/-- C7: whenever a node's kind-specific handling completes (trivially for
nodes that are neither CATEGORY nor ARTICLE; after a successful fetch with
the logged KR keys for ARTICLE nodes; after a present KR title for
CATEGORY nodes), the traversal continues with a recursion into the node's
children, and — unless that recursion panics — the next sibling sequence
is traversed from the state the children's traversal produced.  This holds
for every kind, including ARTICLE nodes with children. -/
theorem claim_C7 (net : Int → Except String ArticleResponseDoc) :
    (∀ i pid pos ty st titles ch md rest s tr r1 s1 tr1,
      ty ≠ "ARTICLE" → ty ≠ "CATEGORY" →
      iterate_children net ch s tr = (r1, s1, tr1) →
      (∀ m, r1 ≠ TravResult.panicked m) →
      iterate_children net
          (CategoryChildResponse.mk i pid pos ty st titles ch md :: rest) s tr =
        iterate_children net rest s1 tr1) ∧
    (∀ i pid pos st titles ch md rest s tr a r1 s1 tr1,
      get_article_content net i = Except.ok a →
      (a.data.category_titles.lookup Lang.KR).isSome = true →
      (a.data.titles.lookup Lang.KR).isSome = true →
      iterate_children net ch ⟨s.category_names, s.ko_articles ++ [a.data]⟩
          (tr ++ [Event.fetch i, Event.sleep]) = (r1, s1, tr1) →
      (∀ m, r1 ≠ TravResult.panicked m) →
      iterate_children net
          (CategoryChildResponse.mk i pid pos "ARTICLE" st titles ch md :: rest) s tr =
        iterate_children net rest s1 tr1) ∧
    (∀ i pid pos st titles t ch md rest s tr r1 s1 tr1,
      titles.lookup Lang.KR = some t →
      iterate_children net ch ⟨s.category_names ++ [t], s.ko_articles⟩ tr =
        (r1, s1, tr1) →
      (∀ m, r1 ≠ TravResult.panicked m) →
      iterate_children net
          (CategoryChildResponse.mk i pid pos "CATEGORY" st titles ch md :: rest) s tr =
        iterate_children net rest s1 tr1) := by
  refine ⟨?_, ?_, ?_⟩
  · intro i pid pos ty st titles ch md rest s tr r1 s1 tr1 hty htyC hrec hnp
    rw [iterate_children, if_neg hty, if_neg htyC]
    by_cases hch : ch.isEmpty
    · have hch' : ch = [] := List.isEmpty_iff.mp hch
      subst hch'
      rw [iterate_children] at hrec
      obtain ⟨rfl, rfl, rfl⟩ := Prod.mk.injEq .. ▸ hrec
      simp
    · rw [if_neg hch, hrec]
      cases r1 with
      | ok => rfl
      | err e => rfl
      | panicked m => exact absurd rfl (hnp m)
  · intro i pid pos st titles ch md rest s tr a r1 s1 tr1 hfetch hct ht hrec hnp
    obtain ⟨ct, hct⟩ := Option.isSome_iff_exists.mp hct
    obtain ⟨t, ht⟩ := Option.isSome_iff_exists.mp ht
    rw [iterate_children, if_pos rfl, hfetch]
    simp only [hct, ht]
    by_cases hch : ch.isEmpty
    · have hch' : ch = [] := List.isEmpty_iff.mp hch
      subst hch'
      rw [iterate_children] at hrec
      obtain ⟨rfl, rfl, rfl⟩ := Prod.mk.injEq .. ▸ hrec
      simp
    · rw [if_neg hch, hrec]
      cases r1 with
      | ok => rfl
      | err e => rfl
      | panicked m => exact absurd rfl (hnp m)
  · intro i pid pos st titles t ch md rest s tr r1 s1 tr1 ht hrec hnp
    rw [iterate_children, if_neg (by decide), if_pos rfl]
    simp only [ht]
    by_cases hch : ch.isEmpty
    · have hch' : ch = [] := List.isEmpty_iff.mp hch
      subst hch'
      rw [iterate_children] at hrec
      obtain ⟨rfl, rfl, rfl⟩ := Prod.mk.injEq .. ▸ hrec
      simp
    · rw [if_neg hch, hrec]
      cases r1 with
      | ok => rfl
      | err e => rfl
      | panicked m => exact absurd rfl (hnp m)

theorem claim_C7_witness :
    iterate_children netW
        (CategoryChildResponse.mk 5 none 0 "OTHER" "st" [] [articleNode 2 []] false :: [])
        ⟨[], []⟩ [] =
      iterate_children netW [] ⟨[], [recW 2]⟩ [Event.fetch 2, Event.sleep] ∧
    iterate_children netW
        (CategoryChildResponse.mk 1 none 0 "ARTICLE" "st" [] [categoryNode 3 "Sub" []] false :: [])
        ⟨[], []⟩ [] =
      iterate_children netW [] ⟨["Sub"], [recW 1]⟩ [Event.fetch 1, Event.sleep] ∧
    iterate_children netW
        (CategoryChildResponse.mk 4 none 0 "CATEGORY" "st" [(Lang.KR, "Top")] [articleNode 2 []] false :: [])
        ⟨[], []⟩ [] =
      iterate_children netW [] ⟨["Top"], [recW 2]⟩ [Event.fetch 2, Event.sleep] := by
  have h1 : iterate_children netW [articleNode 2 []] ⟨[], []⟩ [] =
      (TravResult.ok, ⟨[], [recW 2]⟩, [Event.fetch 2, Event.sleep]) := by
    simp [iterate_children, articleNode, netW, get_article_content,
      decodeArticleResponse, decodeArticleData, decodeLangMap, decodeLang, docW,
      recW, List.lookup]
  have h2 : iterate_children netW [categoryNode 3 "Sub" []] ⟨[], [recW 1]⟩
        [Event.fetch 1, Event.sleep] =
      (TravResult.ok, ⟨["Sub"], [recW 1]⟩, [Event.fetch 1, Event.sleep]) := by
    simp [iterate_children, categoryNode, List.lookup]
  have h3 : iterate_children netW [articleNode 2 []] ⟨["Top"], []⟩ [] =
      (TravResult.ok, ⟨["Top"], [recW 2]⟩, [Event.fetch 2, Event.sleep]) := by
    simp [iterate_children, articleNode, netW, get_article_content,
      decodeArticleResponse, decodeArticleData, decodeLangMap, decodeLang, docW,
      recW, List.lookup]
  refine ⟨?_, ?_, ?_⟩
  · exact (claim_C7 netW).1 5 none 0 "OTHER" "st" [] [articleNode 2 []] false []
      ⟨[], []⟩ [] TravResult.ok ⟨[], [recW 2]⟩ [Event.fetch 2, Event.sleep]
      (by decide) (by decide) h1 (fun m h => TravResult.noConfusion h)
  · exact (claim_C7 netW).2.1 1 none 0 "st" [] [categoryNode 3 "Sub" []] false []
      ⟨[], []⟩ [] ⟨"200", "ok", recW 1⟩ TravResult.ok ⟨["Sub"], [recW 1]⟩
      [Event.fetch 1, Event.sleep] rfl rfl rfl h2 (fun m h => TravResult.noConfusion h)
  · exact (claim_C7 netW).2.2 4 none 0 "st" [(Lang.KR, "Top")] "Top" [articleNode 2 []]
      false [] ⟨[], []⟩ [] TravResult.ok ⟨["Top"], [recW 2]⟩
      [Event.fetch 2, Event.sleep] rfl h3 (fun m h => TravResult.noConfusion h)

/-- A cached category tree whose only top-level node is an ARTICLE with a
KR title and a nested CATEGORY child. -/
def treeC3 : List CategoryChildResponse :=
  [CategoryChildResponse.mk 7 none 0 "ARTICLE" "st" [(Lang.KR, "ArtTitle")]
    [categoryNode 8 "NestedCat" []] false]

/-- C3 (counterexample): in replay mode, the category-name list of
`treeC3` is the KR title of the top-level ARTICLE node, while the
pre-order CATEGORY-title list is the nested category's title — the two
disagree, the replay list contains a non-CATEGORY title and misses a
nested CATEGORY title. -/
theorem claim_C3_counterexample :
    (read_from_local treeC3 []).1 = some (["ArtTitle"], []) ∧
      preorderCategoryNames treeC3 = ["NestedCat"] ∧
      (["ArtTitle"] : List String) ≠ ["NestedCat"] := by
  refine ⟨rfl, ?_, by decide⟩
  simp [preorderCategoryNames, preorderNodes, treeC3, categoryNode, isCategory,
    isArticle, krTitle, List.lookup, List.filter_cons]

/-- C3 (amended): in replay mode the category-name list is the KR titles
of exactly the TOP-LEVEL nodes of the decoded tree, in order, regardless
of their kind; the traversal engine is not run and nested nodes contribute
nothing. -/
theorem claim_C3 (categoryData : List CategoryChildResponse)
    (articleDocs : List ArticleResponseDoc) (names : List String)
    (arts : List ArticleDataResponse)
    (h : (read_from_local categoryData articleDocs).1 = some (names, arts)) :
    names = categoryData.map (fun c => krTitle c.titles) := by
  unfold read_from_local at h
  cases h1 : collectOpt (fun d => (decodeArticleResponse d).toOption) articleDocs with
  | none => rw [h1] at h; simp at h
  | some as =>
    rw [h1] at h
    cases h2 : collectOpt (fun c => c.titles.lookup Lang.KR) categoryData with
    | none => rw [h2] at h; simp at h
    | some ns =>
      rw [h2] at h
      simp at h
      obtain ⟨hn, _⟩ := h
      exact hn ▸ collectOpt_lookup_eq_map categoryData ns h2

/-- Top-level nodes of both kinds with KR titles, for the C3 witness. -/
def treeC3w : List CategoryChildResponse :=
  [categoryNode 1 "A" [],
   CategoryChildResponse.mk 2 none 0 "ARTICLE" "st" [(Lang.KR, "B")] [] false]

theorem claim_C3_witness :
    (read_from_local treeC3w []).1 = some (["A", "B"], []) ∧
      ["A", "B"] = treeC3w.map (fun c => krTitle c.titles) :=
  ⟨rfl, claim_C3 treeC3w [] ["A", "B"] [] rfl⟩

/-- An article document whose `titles` map lacks the KR key but is
otherwise well formed. -/
def docC4 : ArticleResponseDoc :=
  ⟨"200", "ok", ⟨1, 100, [("KR", "Cat")], "PUBLISHED", [("EN", "Title")], [],
    none, [], [("KR", "Body")]⟩⟩

def netC4 : Int → Except String ArticleResponseDoc := fun _ => Except.ok docC4

/-- C4 (counterexample): `docC4` lacks the primary-language title key, yet
it DECODES successfully — the missing key is not a decode-time failure —
and the live traversal then panics at the progress log, aborting the run
(no export: `main_live` yields `none`). -/
theorem claim_C4_counterexample :
    (decodeArticleResponse docC4).toOption.isSome = true ∧
      (iterate_children netC4 [articleNode 1 []] ⟨[], []⟩ []).1 =
        TravResult.panicked "missing KR key" ∧
      main_live netC4 [articleNode 1 []] [] = none := by
  have hit : iterate_children netC4 [articleNode 1 []] ⟨[], []⟩ [] =
      (TravResult.panicked "missing KR key", ⟨[], []⟩, [Event.fetch 1]) := by
    simp [iterate_children, articleNode, netC4, get_article_content,
      decodeArticleResponse, decodeArticleData, decodeLangMap, decodeLang, docC4,
      List.lookup]
  refine ⟨rfl, ?_, ?_⟩
  · rw [hit]
  · rw [main_live, read_from_web, hit]

/-- C4 (amended): a missing primary-language key is not detected at decode
time; it surfaces later as a panic at the first `[&KR]` index — in the
live traversal's progress log for a fetched article, and in
`post_process` for an article whose KR title is read — and a panicking
run produces no export. -/
theorem claim_C4 :
    (∀ (net : Int → Except String ArticleResponseDoc) i pid pos st titles ch md
        rest s tr a,
      get_article_content net i = Except.ok a →
      a.data.titles.lookup Lang.KR = none →
      iterate_children net
          (CategoryChildResponse.mk i pid pos "ARTICLE" st titles ch md :: rest) s tr =
        (TravResult.panicked "missing KR key", s, tr ++ [Event.fetch i])) ∧
    (∀ (r : ArticleDataResponse) arts names excl ct,
      r.titles.lookup Lang.KR = none →
      r.category_titles.lookup Lang.KR = some ct →
      ct ∉ excl →
      post_process (r :: arts) names excl = none) := by
  constructor
  · intro net i pid pos st titles ch md rest s tr a hfetch ht
    rw [iterate_children, if_pos rfl, hfetch]
    cases hcat : a.data.category_titles.lookup Lang.KR <;> simp [hcat, ht]
  · intro r arts names excl ct ht hct hmem
    rw [post_process, collectOpt, post_article_block, hct]
    cases hco : r.contents.lookup Lang.KR <;>
      simp [hmem, ht, hco]

/-- The decoded record of `docC4`: KR title absent. -/
def recC4 : ArticleDataResponse :=
  ⟨1, 100, [(Lang.KR, "Cat")], "PUBLISHED", [(Lang.EN, "Title")], [], none, [],
    [(Lang.KR, "Body")]⟩

theorem claim_C4_witness :
    get_article_content netC4 1 = Except.ok ⟨"200", "ok", recC4⟩ ∧
      recC4.titles.lookup Lang.KR = none ∧
      iterate_children netC4
          (CategoryChildResponse.mk 1 none 0 "ARTICLE" "st" [] [] false :: [])
          ⟨[], []⟩ [] =
        (TravResult.panicked "missing KR key", ⟨[], []⟩, [Event.fetch 1]) ∧
      post_process [recC4] [] [] = none := by
  refine ⟨rfl, rfl, ?_, ?_⟩
  · exact claim_C4.1 netC4 1 none 0 "st" [] [] false [] ⟨[], []⟩ []
      ⟨"200", "ok", recC4⟩ rfl rfl
  · exact claim_C4.2 recC4 [] [] [] "Cat" rfl rfl (by simp)

theorem decodeLangMap_isSome {α : Type} (m : List (String × α)) :
    (decodeLangMap m).isSome = true ↔ ∀ p ∈ m, (decodeLang p.1).isSome = true := by
  induction m with
  | nil => simp [decodeLangMap]
  | cons p t ih =>
    obtain ⟨k, v⟩ := p
    rw [decodeLangMap]
    cases hk : decodeLang k with
    | none => simp [hk]
    | some l =>
      cases hr : decodeLangMap t with
      | none =>
        rw [hr] at ih
        simp at ih
        simp [hk]
        obtain ⟨x, hx, hfx⟩ := ih
        exact ⟨x, hx, hfx⟩
      | some r =>
        rw [hr] at ih
        simp at ih
        simp [hk]
        exact ih

/-- An attachment record, used under both key shapes. -/
def attC8 : ArticleAattachment := ⟨1, "IMAGE", 0, "src", "thumb", false, "ok"⟩

/-- Attachments keyed per attachment TYPE (`"IMAGE"`). -/
def docC8perType : ArticleDataDoc :=
  ⟨1, 100, [("KR", "Cat")], "s", [("KR", "T")], [], none, [("IMAGE", [attC8])],
    [("KR", "B")]⟩

/-- Attachments keyed per LANGUAGE (`"KR"`). -/
def docC8perLang : ArticleDataDoc :=
  ⟨1, 100, [("KR", "Cat")], "s", [("KR", "T")], [], none, [("KR", [attC8])],
    [("KR", "B")]⟩

/-- C8 (counterexample): the decoder REJECTS the per-type attachment
mapping (key `"IMAGE"` is not a `LangEnum` variant) while accepting the
per-language one, refuting "both shapes are accepted". -/
theorem claim_C8_counterexample :
    (decodeArticleData docC8perType).toOption.isSome = false ∧
      (decodeArticleData docC8perLang).toOption.isSome = true := ⟨rfl, rfl⟩

/-- C8 (amended): decoding an article record succeeds exactly when every
key of each of the five language-keyed maps is a `LangEnum` variant name;
in particular a per-language attachments mapping is accepted and a
per-type one is rejected. -/
theorem claim_C8 (d : ArticleDataDoc) :
    (decodeArticleData d).toOption.isSome = true ↔
      ((∀ p ∈ d.category_titles, (decodeLang p.1).isSome = true) ∧
        (∀ p ∈ d.titles, (decodeLang p.1).isSome = true) ∧
        (∀ p ∈ d.subtitles, (decodeLang p.1).isSome = true) ∧
        (∀ p ∈ d.attachments, (decodeLang p.1).isSome = true) ∧
        (∀ p ∈ d.contents, (decodeLang p.1).isSome = true)) := by
  rw [decodeArticleData, ← decodeLangMap_isSome d.category_titles,
    ← decodeLangMap_isSome d.titles, ← decodeLangMap_isSome d.subtitles,
    ← decodeLangMap_isSome d.attachments, ← decodeLangMap_isSome d.contents]
  cases h1 : decodeLangMap d.category_titles <;>
    cases h2 : decodeLangMap d.titles <;>
      cases h3 : decodeLangMap d.subtitles <;>
        cases h4 : decodeLangMap d.attachments <;>
          cases h5 : decodeLangMap d.contents <;>
            simp [h1, h2, h3, h4, h5, Except.toOption]

theorem claim_C8_witness :
    (decodeArticleData docC8perLang).toOption.isSome = true ↔
      ((∀ p ∈ docC8perLang.category_titles, (decodeLang p.1).isSome = true) ∧
        (∀ p ∈ docC8perLang.titles, (decodeLang p.1).isSome = true) ∧
        (∀ p ∈ docC8perLang.subtitles, (decodeLang p.1).isSome = true) ∧
        (∀ p ∈ docC8perLang.attachments, (decodeLang p.1).isSome = true) ∧
        (∀ p ∈ docC8perLang.contents, (decodeLang p.1).isSome = true)) :=
  claim_C8 docC8perLang

/-- C9: the export formatter removes exactly the excluded category names
and exactly the articles whose owning-category KR title is excluded;
`category_text` is the surviving names joined by newline in input order,
and `article_text` is the surviving articles' blocks joined the same
way. -/
theorem claim_C9 (arts : List ArticleDataResponse) (names excl : List String)
    (catText artText : String)
    (h : post_process arts names excl = some (catText, artText)) :
    catText = String.intercalate "\n" (names.filter (fun n => !excl.contains n)) ∧
      artText = String.intercalate "\n" ((keptArticles arts excl).map articleBlockSpec) := by
  rw [post_process] at h
  cases hc : collectOpt (post_article_block excl) arts with
  | none => rw [hc] at h; simp at h
  | some blocks =>
    rw [hc] at h
    rw [Option.some.injEq, Prod.mk.injEq] at h
    obtain ⟨h1, h2⟩ := h
    subst h1
    subst h2
    exact ⟨rfl, by rw [collectOpt_blocks excl arts blocks hc]⟩

theorem claim_C9_witness :
    post_process [] ["A", "B"] ["A"] = some ("B", "") ∧
      ("B" = String.intercalate "\n" (["A", "B"].filter (fun n => !(["A"].contains n))) ∧
        "" = String.intercalate "\n" ((keptArticles [] ["A"]).map articleBlockSpec)) :=
  ⟨rfl, claim_C9 [] ["A", "B"] ["A"] "B" "" rfl⟩

/-- C10: the export formatter is panic-free exactly when every input
article's `category_titles` carries the KR key (read even for articles
that are then excluded), while the article's own KR title and KR body are
needed only for articles whose owning-category title is not excluded. -/
theorem claim_C10 (arts : List ArticleDataResponse) (names excl : List String) :
    (post_process arts names excl).isSome = true ↔
      ∀ a ∈ arts, ∃ ct, a.category_titles.lookup Lang.KR = some ct ∧
        (ct ∉ excl →
          (a.titles.lookup Lang.KR).isSome = true ∧
            (a.contents.lookup Lang.KR).isSome = true) := by
  have key : (post_process arts names excl).isSome = true ↔
      (collectOpt (post_article_block excl) arts).isSome = true := by
    rw [post_process]
    cases hc : collectOpt (post_article_block excl) arts <;> simp
  rw [key, collectOpt_isSome]
  constructor
  · intro h a ha
    exact (post_article_block_isSome excl a).mp (h a ha)
  · intro h a ha
    exact (post_article_block_isSome excl a).mpr (h a ha)

theorem claim_C10_witness :
    (post_process [recW 1] ["Top"] []).isSome = true ↔
      ∀ a ∈ [recW 1], ∃ ct, a.category_titles.lookup Lang.KR = some ct ∧
        (ct ∉ ([] : List String) →
          (a.titles.lookup Lang.KR).isSome = true ∧
            (a.contents.lookup Lang.KR).isSome = true) :=
  claim_C10 [recW 1] ["Top"] []
